import Mathlib

/-!
Shallow embedding of `src/synthetic-insights-generator.py`
(class `SyntheticInsightsGenerator`).

The filesystem is modelled as an explicit value (`FS`): a list of existing
directories and a list of files with contents.  Paths are lists of components,
mirroring `os.path.join`.  External processes (the native PCP generator and
the `xz` compressor) are modelled by an oracle structure `ExternalTools`
supplying their exit codes, diagnostic output, and the files the generator
creates.  Python exceptions become an `Err` sum type and `Except` results;
fallible mutating operations return `Except Err α × FS`.  The scenario of
`tempfile.TemporaryDirectory` is modelled by a fixed fresh scratch path that
is filtered out of the filesystem on every exit path of
`process_insights_archive`.
-/

set_option maxRecDepth 100000

namespace SyntheticInsights

/-- A filesystem path, one component per `os.path.join` argument. -/
abbrev Path := List String

/-- `"/"`-joined rendering of a path, as it appears in messages. -/
def joinPath (p : Path) : String := String.intercalate "/" p

/-- The `object` sub-record of the embedded AWS metadata templates
(`AWS_METADATA_TEMPLATES[...]["results"]["object"]`). -/
structure CommandObject where
  rc : Option Int
  cmd : String
  args : Option String
  save_as : Bool
  relative_path : String
deriving DecidableEq, Repr

/-- The `results` sub-record of the embedded AWS metadata templates. -/
structure CommandResults where
  type : String
  object : CommandObject
deriving DecidableEq, Repr

/-- One entry of `AWS_METADATA_TEMPLATES`.  The floating-point timing fields
are kept verbatim as decimal strings (they are only data, never computed
with). -/
structure MetadataTemplate where
  name : String
  exec_time : String
  errors : List String
  results : CommandResults
  ser_time : String
deriving DecidableEq, Repr

/-- One file descriptor written by `update_pcp_metadata_json` into the
`results` list of `insights.specs.Specs.pcp_raw_data.json`. -/
structure RawFileDescriptor where
  type : String
  save_as : Bool
  relative_path : String
  rc : Option Int
deriving DecidableEq, Repr

/-- A JSON value stored under one key of the pcp_raw_data manifest entry.
Keys other than `results` are uninterpreted by the program (loaded and dumped
back untouched), so they are carried as raw text. -/
inductive JsonVal where
  | descriptors (rs : List RawFileDescriptor)
  | raw (s : String)
deriving DecidableEq, Repr

/-- Contents of a file in the model. -/
inductive FileData where
  | text (s : String)
  | jsonDoc (fields : List (String × JsonVal))
  | metaJson (t : MetadataTemplate)
  | tarball (rootName : String)
deriving DecidableEq, Repr

/-- The filesystem: existing directories and files with contents. -/
structure FS where
  dirs : List Path
  files : List (Path × FileData)
deriving DecidableEq, Repr

/-- `os.path.exists`. -/
def pathExists (fs : FS) (p : Path) : Bool :=
  fs.dirs.contains p || fs.files.any (fun f => f.1 == p)

/-- `os.path.isdir`. -/
def isDir (fs : FS) (p : Path) : Bool := fs.dirs.contains p

/-- `os.path.isfile`. -/
def isFile (fs : FS) (p : Path) : Bool := fs.files.any (fun f => f.1 == p)

/-- If `q` is a direct child of directory `d`, its final component. -/
def childName? (d q : Path) : Option String :=
  if q.take d.length == d then
    match q.drop d.length with
    | [n] => some n
    | _ => none
  else none

/-- `os.listdir`: names of the direct children of `d`
(directories first, then files; `os.listdir` order is unspecified). -/
def listdir (fs : FS) (d : Path) : List String :=
  fs.dirs.filterMap (childName? d) ++ fs.files.filterMap (fun f => childName? d f.1)

/-- Read a file's contents. -/
def readFile? (fs : FS) (p : Path) : Option FileData :=
  (fs.files.find? (fun f => f.1 == p)).map (fun f => f.2)

/-- `open(p, "w")` followed by a write: replaces any existing file at `p`. -/
def writeFile (fs : FS) (p : Path) (d : FileData) : FS :=
  { fs with files := fs.files.filter (fun f => f.1 != p) ++ [(p, d)] }

/-- `os.remove`. -/
def removeFile (fs : FS) (p : Path) : FS :=
  { fs with files := fs.files.filter (fun f => f.1 != p) }

/-- All nonempty prefixes of a path. -/
def pathPrefixes (p : Path) : List Path :=
  (List.range p.length).map (fun i => p.take (i + 1))

/-- `os.makedirs(p, exist_ok=True)`: creates `p` and its missing parents. -/
def makedirs (fs : FS) (p : Path) : FS :=
  { fs with dirs := fs.dirs ++ (pathPrefixes p).filter (fun q => !(fs.dirs.contains q)) }

/-- Python exception classes raised by the script. -/
inductive Err where
  | runtimeError (msg : String)
  | fileNotFoundError (msg : String)
  | valueError (msg : String)
  | jsonDecodeError (msg : String)
deriving DecidableEq, Repr

/-- Does the character list start with the given pattern? -/
def charsStartWith : List Char → List Char → Bool
  | _, [] => true
  | [], _ :: _ => false
  | c :: s, p :: ps => c == p && charsStartWith s ps

/-- Does the character list contain the pattern as a contiguous run? -/
def charsContain : List Char → List Char → Bool
  | [], pat => pat.isEmpty
  | c :: rest, pat => charsStartWith (c :: rest) pat || charsContain rest pat

/-- Substring test (`needle in haystack` on Python strings). -/
def strContains (s pat : String) : Bool := charsContain s.data pat.data

/-- Candidate relative locations of the PCP pmlogger directory, in the order
`find_pcp_directory` tries them. -/
def pcpCandidates (main_dir : Path) : List Path :=
  [main_dir ++ ["data", "var", "log", "pcp", "pmlogger"],
   main_dir ++ ["var", "log", "pcp", "pmlogger"]]

/-- `find_pcp_directory`: first existing candidate, else `RuntimeError`. -/
def find_pcp_directory (fs : FS) (main_dir : Path) : Except Err Path :=
  match (pcpCandidates main_dir).find? (fun p => pathExists fs p) with
  | some p => .ok p
  | none => .error (.runtimeError "Could not find PCP pmlogger directory")

/-- Candidate relative locations of the metadata directory, in the order
`find_metadata_directory` tries them. -/
def metadataCandidates (main_dir : Path) : List Path :=
  [main_dir ++ ["meta_data"], main_dir ++ ["metadata"]]

/-- `find_metadata_directory`: first existing candidate, else `RuntimeError`. -/
def find_metadata_directory (fs : FS) (main_dir : Path) : Except Err Path :=
  match (metadataCandidates main_dir).find? (fun p => pathExists fs p) with
  | some p => .ok p
  | none => .error (.runtimeError "Could not find metadata directory")

/-- `check_cloud_metadata_exists`: the provenance audit.  The whole body is
wrapped in `try/except Exception: return False`, so the only modelled
exception (`find_metadata_directory`) degrades to `false`. -/
def check_cloud_metadata_exists (fs : FS) (main_dir : Path) : Bool :=
  match find_metadata_directory fs main_dir with
  | .error _ => false
  | .ok metadata_dir =>
    let insights_commands_dir := main_dir ++ ["data", "insights_commands"]
    let aws_instance_file_found :=
      pathExists fs insights_commands_dir &&
        (listdir fs insights_commands_dir).any
          (fun file => strContains file "instance-identity.document" && strContains file "curl")
    let aws_metadata_json := metadata_dir ++ ["insights.specs.Specs.aws_instance_id_doc.json"]
    let aws_json_exists := pathExists fs aws_metadata_json
    aws_instance_file_found && aws_json_exists

/-- `AWS_INSTANCE_DOCUMENT`: the embedded instance-identity document text. -/
def AWS_INSTANCE_DOCUMENT : String :=
  "\x7b\n  \"accountId\" : \"123456789012\",\n  \"architecture\" : \"x86_64\",\n  \"availabilityZone\" : \"ap-northeast-1c\",\n  \"billingProducts\" : [ \"bp-mock12345\" ],\n  \"devpayProductCodes\" : null,\n  \"marketplaceProductCodes\" : null,\n  \"imageId\" : \"ami-12345abcdef678901\",\n  \"instanceId\" : \"i-abcd1234567890xyz\",\n  \"instanceType\" : \"t3.small\",\n  \"kernelId\" : null,\n  \"pendingTime\" : \"2024-01-01T12:00:00Z\",\n  \"privateIp\" : \"10.0.1.100\",\n  \"ramdiskId\" : null,\n  \"region\" : \"ap-northeast-1\",\n  \"version\" : \"2017-09-30\"\n\x7d"

/-- The shared mock token header of every embedded curl command. -/
def mockCurl (url : String) : String :=
  "/usr/bin/curl -s -H \"X-aws-ec2-metadata-token: MockTokenABCD1234567890XYZsampleToken9876543210EFGH==\" " ++ url ++ " --connect-timeout 5"

/-- The shared filename stem of every embedded curl command artifact. -/
def mockCurlPath (tail : String) : String :=
  "insights_commands/curl_-s_-H_X-aws-ec2-metadata-token_MockTokenABCD1234567890XYZsampleToken9876543210EFGH_http_..169.254.169.254." ++ tail ++ "_--connect-timeout_5"

/-- `AWS_METADATA_TEMPLATES`: the four embedded metadata JSON templates,
keyed by output filename.  Timing fields are kept verbatim as text. -/
def AWS_METADATA_TEMPLATES : List (String × MetadataTemplate) :=
  [("insights.specs.Specs.aws_instance_id_doc.json",
    { name := "insights.specs.Specs.aws_instance_id_doc",
      exec_time := "0.0002298355102539",
      errors := [],
      results :=
        { type := "insights.core.spec_factory.CommandOutputProvider",
          object :=
            { rc := none,
              cmd := mockCurl "http://169.254.169.254/latest/dynamic/instance-identity/document",
              args := none, save_as := false,
              relative_path := mockCurlPath "latest.dynamic.instance-identity.document" } },
      ser_time := "0.016474246978759766" }),
   ("insights.specs.Specs.aws_instance_id_pkcs7.json",
    { name := "insights.specs.Specs.aws_instance_id_pkcs7",
      exec_time := "0.0002226829528808594",
      errors := [],
      results :=
        { type := "insights.core.spec_factory.CommandOutputProvider",
          object :=
            { rc := none,
              cmd := mockCurl "http://169.254.169.254/latest/dynamic/instance-identity/pkcs7",
              args := none, save_as := false,
              relative_path := mockCurlPath "latest.dynamic.instance-identity.pkcs7" } },
      ser_time := "0.016751527786254883" }),
   ("insights.specs.Specs.aws_public_hostnames.json",
    { name := "insights.specs.Specs.aws_public_hostnames",
      exec_time := "0.00030684471130371094",
      errors := [],
      results :=
        { type := "insights.core.spec_factory.CommandOutputProvider",
          object :=
            { rc := none,
              cmd := mockCurl "http://169.254.169.254/latest/meta-data/public-hostname",
              args := none, save_as := false,
              relative_path := mockCurlPath "latest.meta-data.public-hostname" } },
      ser_time := "0.021778106689453125" }),
   ("insights.specs.Specs.aws_public_ipv4_addresses.json",
    { name := "insights.specs.Specs.aws_public_ipv4_addresses",
      exec_time := "0.00025",
      errors := [],
      results :=
        { type := "insights.core.spec_factory.CommandOutputProvider",
          object :=
            { rc := none,
              cmd := mockCurl "http://169.254.169.254/latest/meta-data/public-ipv4",
              args := none, save_as := false,
              relative_path := mockCurlPath "latest.meta-data.public-ipv4" } },
      ser_time := "0.021" })]

/-- `CLOUD_COMMANDS`: the embedded cloud command files (filename, content). -/
def CLOUD_COMMANDS : List (String × String) :=
  [("cloud-init_query_-f_cloud_name_platform", "aws\nec2")]

/-- The names of the `SYSTEM_PATTERNS` table, in declaration order. -/
def systemPatternNames : List String :=
  ["idle", "optimized", "under_pressure", "undersized"]

/-- Behaviour of the external programs invoked by the script: the native
`synthetic-pcp-generator` (exit code, stderr, and the files it writes into
its working directory) and the `xz` compressor (exit code per file name,
stderr).  Both are out-of-scope collaborators; only their observable
contract appears here. -/
structure ExternalTools where
  genExit : Nat
  genStderr : String
  genFiles : List (String × FileData)
  xzExit : String → Nat
  xzStderr : String

/-- The three suffixes of a time-series unit before compression. -/
def pcpExts : List String := ["0", "index", "meta"]

/-- `generate_native_pcp_archive`: remove stale files, run the native
generator in `work_dir`, check its exit code, then verify the three expected
files exist.  Returns the verified filename list. -/
def generate_native_pcp_archive (tools : ExternalTools) (fs : FS)
    (output_base_name : String) (work_dir : Path) :
    Except Err (List String) × FS :=
  let fs1 := (["0", "index", "meta", "0.xz", "meta.xz"]).foldl
    (fun acc ext =>
      let p := work_dir ++ [output_base_name ++ "." ++ ext]
      if pathExists acc p then removeFile acc p else acc) fs
  let fs2 := tools.genFiles.foldl
    (fun acc nf => writeFile acc (work_dir ++ [nf.1]) nf.2) fs1
  if tools.genExit != 0 then
    (.error (.runtimeError ("Native C PMI failed: " ++ tools.genStderr)), fs2)
  else
    let required_files := pcpExts.map (fun ext => output_base_name ++ "." ++ ext)
    match required_files.find? (fun f => !(pathExists fs2 (work_dir ++ [f]))) with
    | some f => (.error (.fileNotFoundError ("Expected file not created: " ++ f)), fs2)
    | none => (.ok required_files, fs2)

/-- One iteration of the compression loop in `compress_pcp_files`: if the
file exists, run `xz` on it (success consumes the file and leaves the `.xz`
variant); a missing file is silently skipped. -/
def xzOne (tools : ExternalTools) (fs : FS) (work_dir : Path) (file_name : String) :
    Except Err Unit × FS :=
  let p := work_dir ++ [file_name]
  if pathExists fs p then
    if tools.xzExit file_name == 0 then
      let content := (readFile? fs p).getD (.text "")
      (.ok (), writeFile (removeFile fs p) (work_dir ++ [file_name ++ ".xz"]) content)
    else
      (.error (.runtimeError ("Failed to compress " ++ file_name ++ ": " ++ tools.xzStderr)), fs)
  else
    (.ok (), fs)

/-- The three final filenames a compressed time-series unit consists of. -/
def finalUnitFiles (base_name : String) : List String :=
  ["0.xz", "index", "meta.xz"].map (fun ext => base_name ++ "." ++ ext)

/-- `compress_pcp_files`: compress the `.0` and `.meta` files with `xz`
(in that order) and return the final file list. -/
def compress_pcp_files (tools : ExternalTools) (fs : FS) (base_name : String) (work_dir : Path) :
    Except Err (List String) × FS :=
  match xzOne tools fs work_dir (base_name ++ ".0") with
  | (.error e, fs') => (.error e, fs')
  | (.ok _, fs1) =>
    match xzOne tools fs1 work_dir (base_name ++ ".meta") with
    | (.error e, fs') => (.error e, fs')
    | (.ok _, fs2) => (.ok (finalUnitFiles base_name), fs2)

/-- The three relative paths advertised by the updated pcp manifest entry. -/
def pcpExpectedFiles (archive_name : String) : List String :=
  ["0.xz", "index", "meta.xz"].map
    (fun ext => "var/log/pcp/pmlogger/" ++ archive_name ++ "." ++ ext)

/-- The replacement `results` list built by `update_pcp_metadata_json`. -/
def pcpNewResults (archive_name : String) : List RawFileDescriptor :=
  (pcpExpectedFiles archive_name).map (fun fp =>
    { type := "insights.core.spec_factory.RawFileProvider",
      save_as := true, relative_path := fp, rc := none })

/-- Python dict assignment `d[k] = v`: replace the value at `k` in place,
or append the binding if the key is absent. -/
def dictSet (d : List (String × JsonVal)) (k : String) (v : JsonVal) :
    List (String × JsonVal) :=
  if d.any (fun kv => kv.1 == k) then
    d.map (fun kv => if kv.1 == k then (k, v) else kv)
  else d ++ [(k, v)]

/-- `update_pcp_metadata_json`: rewrite the `results` list of
`insights.specs.Specs.pcp_raw_data.json`.  A missing entry file is a
non-fatal no-op (log and return).  A file that is not a JSON document fails
like `json.load` would. -/
def update_pcp_metadata_json (fs : FS) (metadata_dir : Path) (archive_name : String) :
    Except Err Unit × FS :=
  let json_file := metadata_dir ++ ["insights.specs.Specs.pcp_raw_data.json"]
  if !(pathExists fs json_file) then
    (.ok (), fs)
  else
    match readFile? fs json_file with
    | some (.jsonDoc fields) =>
      let data := dictSet fields "results" (.descriptors (pcpNewResults archive_name))
      (.ok (), writeFile fs json_file (.jsonDoc data))
    | _ => (.error (.jsonDecodeError ("Invalid JSON in " ++ joinPath json_file)), fs)

/-- The fixed filename of the synthetic AWS instance-identity artifact. -/
def awsDocumentFilename : String :=
  "curl_-s_-H_X-aws-ec2-metadata-token_MockTokenABCD1234567890XYZsampleToken9876543210EFGH_http_..169.254.169.254.latest.dynamic.instance-identity.document_--connect-timeout_5"

/-- `inject_embedded_cloud_metadata`: write the instance-identity artifact,
the cloud command files, and the four metadata JSON templates into the
bundle (creating the command-output directory if absent). -/
def inject_embedded_cloud_metadata (fs : FS) (target_main_dir : Path) :
    Except Err Unit × FS :=
  let target_insights_commands := target_main_dir ++ ["data", "insights_commands"]
  match find_metadata_directory fs target_main_dir with
  | .error e => (.error e, fs)
  | .ok target_metadata_dir =>
    let fs1 := makedirs fs target_insights_commands
    let fs2 := writeFile fs1 (target_insights_commands ++ [awsDocumentFilename])
      (.text AWS_INSTANCE_DOCUMENT)
    let fs3 := CLOUD_COMMANDS.foldl
      (fun acc nc => writeFile acc (target_insights_commands ++ [nc.1]) (.text nc.2)) fs2
    let fs4 := AWS_METADATA_TEMPLATES.foldl
      (fun acc nt => writeFile acc (target_metadata_dir ++ [nt.1]) (.metaJson nt.2)) fs3
    (.ok (), fs4)

/-- The tarball `create_insights_archive` writes: the subtree rooted at
the bundle's top-level directory, entry names relative to its parent. -/
structure PackedArchive where
  rootName : String
  dirs : List Path
  files : List (Path × FileData)
deriving DecidableEq, Repr

/-- `create_insights_archive`: tar up `main_dir` (so its base name is the
sole top-level entry) and move the result into the original working
directory.  Returns the final path together with the packed tree. -/
def create_insights_archive (fs : FS) (cwd main_dir : Path) (output_name : String) :
    (Path × PackedArchive) × FS :=
  let archive_name := output_name ++ ".tar.gz"
  let base_name := (main_dir.getLast?).getD ""
  let parent_dir := main_dir.dropLast
  let packed : PackedArchive :=
    { rootName := base_name,
      dirs := fs.dirs.filterMap (fun q =>
        if main_dir.isPrefixOf q then some (q.drop parent_dir.length) else none),
      files := fs.files.filterMap (fun f =>
        if main_dir.isPrefixOf f.1 then some (f.1.drop parent_dir.length, f.2) else none) }
  let final_path := cwd ++ [archive_name]
  ((final_path, packed), writeFile fs final_path (.tarball base_name))

/-- The tree inside an input tar archive: directory entries and file
entries, paths relative to the extraction directory.  Parsing the tar byte
stream is done by the external `tarfile` library; this structure is its
observable result. -/
structure InputArchive where
  dirs : List Path
  files : List (Path × FileData)
deriving DecidableEq, Repr

/-- `extract_insights_archive`: populate `extract_dir` with the archive's
tree, then return the first top-level directory entry as the main
directory (`RuntimeError` if there is none). -/
def extract_insights_archive (fs : FS) (archive : InputArchive) (extract_dir : Path) :
    Except Err Path × FS :=
  let fs1 : FS :=
    { dirs := fs.dirs ++ archive.dirs.map (fun d => extract_dir ++ d),
      files := fs.files ++ archive.files.map (fun f => (extract_dir ++ f.1, f.2)) }
  match (listdir fs1 extract_dir).find? (fun item => isDir fs1 (extract_dir ++ [item])) with
  | some item => (.ok (extract_dir ++ [item]), fs1)
  | none => (.error (.runtimeError "Could not find main directory in extracted archive"), fs1)

/-- `os.path.splitext(name)[0]`: strip the extension starting at the last
dot, unless every character before that dot is itself a dot. -/
def splitextStem (name : String) : String :=
  let cs := name.data
  match cs.reverse.indexOf? '.' with
  | none => name
  | some rk =>
    let sepIndex := cs.length - 1 - rk
    if (cs.take sepIndex).any (fun c => c != '.') then
      String.mk (cs.take sepIndex)
    else name

/-- Delete every plain file directly inside `d` (the orchestrator's
"clean existing PCP files" loop; subdirectories are kept). -/
def removeFilesIn (fs : FS) (d : Path) : FS :=
  { fs with files := fs.files.filter (fun f => (childName? d f.1).isNone) }

/-- Remove the scratch area: what `tempfile.TemporaryDirectory` does on
every exit path of its `with` block. -/
def cleanupTemp (fs : FS) (temp : Path) : FS :=
  { dirs := fs.dirs.filter (fun d => !(temp.isPrefixOf d)),
    files := fs.files.filter (fun f => !(temp.isPrefixOf f.1)) }

/-- The scratch directory handed out by `tempfile.TemporaryDirectory`
(guaranteed fresh and empty by the library). -/
def tempDir : Path := ["tmp", "scratch"]

/-- `tempfile.TemporaryDirectory` creates the scratch directory itself
(its parent already exists). -/
def mkScratch (fs : FS) : FS := { fs with dirs := fs.dirs ++ [tempDir] }

/-- Outcome of one orchestrator run: the returned final archive path (or
the raised exception), the filesystem after the run, the packed output
archive when one was produced, and the trace of component invocations. -/
structure RunResult where
  result : Except Err Path
  fs : FS
  packed : Option PackedArchive
  events : List String

/-- Abort the run: the scratch area is removed and no archive exists. -/
def abortRun (e : Err) (fs : FS) (events : List String) : RunResult :=
  { result := .error e, fs := cleanupTemp fs tempDir, packed := none, events := events }

/-- `process_insights_archive`: the complete pipeline.
Extract → audit provenance → resolve layout → clean → generate → compress →
verify → update manifest → inject provenance if the audit was negative →
repackage; the scratch area is removed on every exit path. -/
def process_insights_archive (tools : ExternalTools) (fs : FS) (cwd : Path)
    (input_archive_path : Path) (archive : InputArchive)
    (pattern_type : String) (output_name? : Option String) : RunResult :=
  if !(systemPatternNames.contains pattern_type) then
    { result := .error (.valueError ("Unknown pattern " ++ pattern_type ++ ". Supported: "
        ++ String.intercalate ", " systemPatternNames)),
      fs := fs, packed := none, events := [] }
  else
    let output_name := match output_name? with
      | some n => n
      | none =>
        "synthetic_" ++ pattern_type ++ "_"
          ++ splitextStem ((input_archive_path.getLast?).getD "")
    let fs0 := mkScratch fs
    match extract_insights_archive fs0 archive tempDir with
    | (.error e, fsE) => abortRun e fsE ["extract"]
    | (.ok main_dir, fs1) =>
      let cloud_exists := check_cloud_metadata_exists fs1 main_dir
      match find_pcp_directory fs1 main_dir with
      | .error e => abortRun e fs1 ["extract", "audit", "find_pcp"]
      | .ok pcp_dir =>
        match find_metadata_directory fs1 main_dir with
        | .error e => abortRun e fs1 ["extract", "audit", "find_pcp", "find_metadata"]
        | .ok metadata_dir =>
          let fs2 := removeFilesIn fs1 pcp_dir
          let archive_base_name := "synthetic_pcp_" ++ pattern_type
          match generate_native_pcp_archive tools fs2 archive_base_name pcp_dir with
          | (.error e, fsG) =>
            abortRun e fsG ["extract", "audit", "find_pcp", "find_metadata", "clean", "generate"]
          | (.ok _, fs3) =>
            match compress_pcp_files tools fs3 archive_base_name pcp_dir with
            | (.error e, fsC) =>
              abortRun e fsC
                ["extract", "audit", "find_pcp", "find_metadata", "clean", "generate", "compress"]
            | (.ok compressed_files, fs4) =>
              match compressed_files.find? (fun f => !(pathExists fs4 (pcp_dir ++ [f]))) with
              | some f =>
                abortRun (.fileNotFoundError ("Compressed file missing: " ++ joinPath (pcp_dir ++ [f]))) fs4
                  ["extract", "audit", "find_pcp", "find_metadata", "clean", "generate", "compress"]
              | none =>
                match update_pcp_metadata_json fs4 metadata_dir archive_base_name with
                | (.error e, fsU) =>
                  abortRun e fsU
                    ["extract", "audit", "find_pcp", "find_metadata", "clean", "generate",
                     "compress", "update_manifest"]
                | (.ok _, fs5) =>
                  if cloud_exists then
                    let ((final_path, packed), fs7) :=
                      create_insights_archive fs5 cwd main_dir output_name
                    { result := .ok final_path, fs := cleanupTemp fs7 tempDir,
                      packed := some packed,
                      events := ["extract", "audit", "find_pcp", "find_metadata", "clean",
                                 "generate", "compress", "update_manifest", "pack"] }
                  else
                    match inject_embedded_cloud_metadata fs5 main_dir with
                    | (.error e, fsI) =>
                      abortRun e fsI
                        ["extract", "audit", "find_pcp", "find_metadata", "clean", "generate",
                         "compress", "update_manifest", "inject"]
                    | (.ok _, fs6) =>
                      let ((final_path, packed), fs7) :=
                        create_insights_archive fs6 cwd main_dir output_name
                      { result := .ok final_path, fs := cleanupTemp fs7 tempDir,
                        packed := some packed,
                        events := ["extract", "audit", "find_pcp", "find_metadata", "clean",
                                   "generate", "compress", "update_manifest", "inject", "pack"] }

/-! ## Concrete fixtures used by the example runs and witnesses -/

/-- External tools behaving per contract for unit base name `base`:
generator exits 0 and creates exactly the three expected files, `xz`
always succeeds. -/
def toolsFor (base : String) : ExternalTools :=
  { genExit := 0, genStderr := "",
    genFiles := [(base ++ ".0", .text "samples"),
                 (base ++ ".index", .text "index"),
                 (base ++ ".meta", .text "metadata")],
    xzExit := fun _ => 0, xzStderr := "" }

/-- A minimal input bundle: one timestamped root with a legacy-layout
pmlogger directory and a `meta_data` directory, no provenance evidence and
no pcp manifest entry. -/
def bundleStd : InputArchive :=
  { dirs := [["insights-host"], ["insights-host", "var"], ["insights-host", "var", "log"],
             ["insights-host", "var", "log", "pcp"],
             ["insights-host", "var", "log", "pcp", "pmlogger"],
             ["insights-host", "meta_data"]],
    files := [] }

/-- The invoking user's working directory with the input archive in it. -/
def homeFS : FS :=
  { dirs := [["home"]], files := [(["home", "input.tar.gz"], .text "gz")] }

/-- Names of the files directly inside directory `d` of a packed archive. -/
def packedChildFiles (a : PackedArchive) (d : Path) : List String :=
  a.files.filterMap (fun f => childName? d f.1)

/-- The §8 example scenario: profile `idle`, bundle without provenance. -/
def runScenarioIdle : RunResult :=
  process_insights_archive (toolsFor "synthetic_pcp_idle") homeFS ["home"]
    ["home", "input.tar.gz"] bundleStd "idle" none

/-! ## Claim C1 -/

/-- C1 counterexample: in the §8 example scenario (input bundle with no
provenance evidence, profile `idle`) the output archive's command-output
directory contains two synthesized documents, not exactly one as the claim
states: `inject_embedded_cloud_metadata` writes both the instance-identity
document and the `CLOUD_COMMANDS` file. -/
theorem C1_scenario_counterexample :
    runScenarioIdle.packed.map (fun a =>
      (packedChildFiles a ["insights-host", "data", "insights_commands"]).length) = some 2 ∧
    ¬ runScenarioIdle.packed.map (fun a =>
      (packedChildFiles a ["insights-host", "data", "insights_commands"]).length) = some 1 := by
  decide

/-- C1 (amended): in the §8 example scenario the output archive's
time-series directory contains exactly the three files
`synthetic_pcp_idle.0.xz`, `synthetic_pcp_idle.index`,
`synthetic_pcp_idle.meta.xz`, the manifest directory contains exactly the
four synthesized provenance JSON documents, and the command-output
directory contains exactly two synthesized command-output documents (the
instance-identity document and the cloud command file). -/
theorem C1_scenario_amended :
    runScenarioIdle.packed.map (fun a =>
        packedChildFiles a ["insights-host", "var", "log", "pcp", "pmlogger"])
      = some ["synthetic_pcp_idle.index", "synthetic_pcp_idle.0.xz",
              "synthetic_pcp_idle.meta.xz"] ∧
    runScenarioIdle.packed.map (fun a => packedChildFiles a ["insights-host", "meta_data"])
      = some ["insights.specs.Specs.aws_instance_id_doc.json",
              "insights.specs.Specs.aws_instance_id_pkcs7.json",
              "insights.specs.Specs.aws_public_hostnames.json",
              "insights.specs.Specs.aws_public_ipv4_addresses.json"] ∧
    runScenarioIdle.packed.map (fun a =>
        packedChildFiles a ["insights-host", "data", "insights_commands"])
      = some [awsDocumentFilename, "cloud-init_query_-f_cloud_name_platform"] ∧
    runScenarioIdle.result.toOption = some ["home", "synthetic_idle_input.tar.tar.gz"] := by
  decide

/-! ## Claim C2 -/

/-- C2 counterexample: on a root directory where no candidate exists, both
layout resolvers fail with fixed messages that do not name the candidate
relative paths that were tried (the claim says the message names all
candidates). -/
theorem C2_layout_counterexample :
    find_pcp_directory { dirs := [], files := [] } ["r"]
      = .error (.runtimeError "Could not find PCP pmlogger directory") ∧
    strContains "Could not find PCP pmlogger directory" "data/var/log/pcp/pmlogger" = false ∧
    find_metadata_directory { dirs := [], files := [] } ["r"]
      = .error (.runtimeError "Could not find metadata directory") ∧
    strContains "Could not find metadata directory" "meta_data" = false :=
  ⟨rfl, by decide, rfl, by decide⟩

/-- C2 (amended): each layout resolver tries its fixed ordered candidate
list and returns the first existing candidate; when none exists it fails
with a fixed error message identifying the missing directory kind — a
message that does not enumerate the candidate paths tried. -/
theorem C2_layout_resolution (fs : FS) (root : Path) :
    (pathExists fs (root ++ ["data", "var", "log", "pcp", "pmlogger"]) = true →
      find_pcp_directory fs root = .ok (root ++ ["data", "var", "log", "pcp", "pmlogger"])) ∧
    (pathExists fs (root ++ ["data", "var", "log", "pcp", "pmlogger"]) = false →
      pathExists fs (root ++ ["var", "log", "pcp", "pmlogger"]) = true →
      find_pcp_directory fs root = .ok (root ++ ["var", "log", "pcp", "pmlogger"])) ∧
    ((∀ p ∈ pcpCandidates root, pathExists fs p = false) →
      find_pcp_directory fs root
        = .error (.runtimeError "Could not find PCP pmlogger directory")) ∧
    (pathExists fs (root ++ ["meta_data"]) = true →
      find_metadata_directory fs root = .ok (root ++ ["meta_data"])) ∧
    (pathExists fs (root ++ ["meta_data"]) = false →
      pathExists fs (root ++ ["metadata"]) = true →
      find_metadata_directory fs root = .ok (root ++ ["metadata"])) ∧
    ((∀ p ∈ metadataCandidates root, pathExists fs p = false) →
      find_metadata_directory fs root
        = .error (.runtimeError "Could not find metadata directory")) ∧
    strContains "Could not find PCP pmlogger directory" "data/var/log/pcp/pmlogger" = false ∧
    strContains "Could not find metadata directory" "meta_data" = false := by
  refine ⟨?_, ?_, ?_, ?_, ?_, ?_, by decide, by decide⟩
  · intro h
    simp [find_pcp_directory, pcpCandidates, List.find?, h]
  · intro h1 h2
    simp [find_pcp_directory, pcpCandidates, List.find?, h1, h2]
  · intro h
    have h1 := h (root ++ ["data", "var", "log", "pcp", "pmlogger"]) (by simp [pcpCandidates])
    have h2 := h (root ++ ["var", "log", "pcp", "pmlogger"]) (by simp [pcpCandidates])
    simp [find_pcp_directory, pcpCandidates, List.find?, h1, h2]
  · intro h
    simp [find_metadata_directory, metadataCandidates, List.find?, h]
  · intro h1 h2
    simp [find_metadata_directory, metadataCandidates, List.find?, h1, h2]
  · intro h
    have h1 := h (root ++ ["meta_data"]) (by simp [metadataCandidates])
    have h2 := h (root ++ ["metadata"]) (by simp [metadataCandidates])
    simp [find_metadata_directory, metadataCandidates, List.find?, h1, h2]

/-- A bundle root carrying only the legacy pmlogger layout. -/
def fsLegacyLayout : FS :=
  { dirs := [["r"], ["r", "var", "log", "pcp", "pmlogger"], ["r", "metadata"]], files := [] }

/-- Witness for C2: on the legacy layout the first candidate is absent and
the second is returned. -/
theorem C2_layout_resolution_witness :
    find_pcp_directory fsLegacyLayout ["r"] = .ok ["r", "var", "log", "pcp", "pmlogger"] :=
  (C2_layout_resolution fsLegacyLayout ["r"]).2.1 (by decide) (by decide)

/-! ## Claim C3 -/

/-- C3: the provenance audit returns true exactly when the metadata
directory resolves, a command-output filename containing both fixed
substrings exists, and the fixed manifest filename exists; and any
layout-resolution error while checking degrades to `false` instead of
propagating.  (`check_cloud_metadata_exists` takes the filesystem as a
value and returns only a Bool, so it mutates nothing by construction.) -/
theorem C3_provenance_audit (fs : FS) (main_dir : Path) :
    (check_cloud_metadata_exists fs main_dir = true ↔
      (∃ md, find_metadata_directory fs main_dir = .ok md ∧
        pathExists fs (main_dir ++ ["data", "insights_commands"]) = true ∧
        (∃ file ∈ listdir fs (main_dir ++ ["data", "insights_commands"]),
          strContains file "instance-identity.document" = true ∧
          strContains file "curl" = true) ∧
        pathExists fs (md ++ ["insights.specs.Specs.aws_instance_id_doc.json"]) = true)) ∧
    (∀ e, find_metadata_directory fs main_dir = .error e →
      check_cloud_metadata_exists fs main_dir = false) := by
  constructor
  · cases hmd : find_metadata_directory fs main_dir with
    | error e => simp [check_cloud_metadata_exists, hmd]
    | ok md =>
      simp [check_cloud_metadata_exists, hmd, List.any_eq_true]
      constructor
      · rintro ⟨⟨hdir, f, hf, h1, h2⟩, hjson⟩
        exact ⟨hdir, ⟨f, hf, h1, h2⟩, hjson⟩
      · rintro ⟨hdir, ⟨f, hf, h1, h2⟩, hjson⟩
        exact ⟨⟨hdir, f, hf, h1, h2⟩, hjson⟩
  · intro e he
    simp [check_cloud_metadata_exists, he]

/-- Witness for C3: on an empty filesystem the metadata directory does not
resolve and the audit degrades to false. -/
theorem C3_provenance_audit_witness :
    check_cloud_metadata_exists { dirs := [], files := [] } ["r"] = false :=
  (C3_provenance_audit { dirs := [], files := [] } ["r"]).2
    (.runtimeError "Could not find metadata directory") rfl

/-! ## Claim C5 -/

lemma readFile?_pathExists {fs : FS} {p : Path} {d : FileData}
    (h : readFile? fs p = some d) : pathExists fs p = true := by
  unfold readFile? at h
  cases hf : fs.files.find? (fun f => f.1 == p) with
  | none => simp [hf] at h
  | some kv =>
    have hp := List.find?_some hf
    have hm := List.mem_of_find?_eq_some hf
    unfold pathExists
    have : fs.files.any (fun f => f.1 == p) = true := List.any_eq_true.2 ⟨kv, hm, hp⟩
    simp [this]

lemma lookup_map_dictSet {k k' : String} {v : JsonVal} (hne : k' ≠ k) :
    ∀ d : List (String × JsonVal),
      (d.map (fun kv => if kv.1 == k then (k, v) else kv)).lookup k' = d.lookup k'
  | [] => rfl
  | (k1, v1) :: tl => by
    rw [List.map_cons]
    cases hk : k1 == k with
    | true =>
      rw [if_pos rfl]
      have h1 : (k' == k) = false := beq_eq_false_iff_ne.2 hne
      have h2 : (k' == k1) = false :=
        beq_eq_false_iff_ne.2 (fun he => hne (he.trans (beq_iff_eq.1 hk)))
      simp only [List.lookup, h1, h2]
      exact lookup_map_dictSet hne tl
    | false =>
      rw [if_neg Bool.false_ne_true]
      simp only [List.lookup]
      cases he : k' == k1 with
      | true => rfl
      | false => exact lookup_map_dictSet hne tl

lemma lookup_map_dictSet_self {k : String} {v : JsonVal} :
    ∀ d : List (String × JsonVal), d.any (fun kv => kv.1 == k) = true →
      (d.map (fun kv => if kv.1 == k then (k, v) else kv)).lookup k = some v
  | [], h => by simp at h
  | (k1, v1) :: tl, h => by
    rw [List.map_cons]
    cases hk : k1 == k with
    | true =>
      rw [if_pos rfl]
      simp only [List.lookup, beq_self_eq_true]
    | false =>
      rw [if_neg Bool.false_ne_true]
      have hks : (k == k1) = false :=
        beq_eq_false_iff_ne.2 (fun he => (beq_eq_false_iff_ne.1 hk) he.symm)
      simp only [List.lookup, hks]
      have htl : tl.any (fun kv => kv.1 == k) = true := by simpa [hk] using h
      exact lookup_map_dictSet_self tl htl

lemma lookup_append_single_self {k : String} {v : JsonVal} :
    ∀ d : List (String × JsonVal), d.any (fun kv => kv.1 == k) = false →
      (d ++ [(k, v)]).lookup k = some v
  | [], _ => by simp [List.lookup]
  | (k1, v1) :: tl, h => by
    have h1 : (k1 == k) = false := by
      cases hk : k1 == k with
      | true => simp [hk] at h
      | false => rfl
    have hks : (k == k1) = false :=
      beq_eq_false_iff_ne.2 (fun he => (beq_eq_false_iff_ne.1 h1) he.symm)
    simp only [List.cons_append, List.lookup, hks]
    exact lookup_append_single_self tl (by simpa [h1] using h)

lemma lookup_append_single_ne {k k' : String} {v : JsonVal} (hne : k' ≠ k) :
    ∀ d : List (String × JsonVal), (d ++ [(k, v)]).lookup k' = d.lookup k'
  | [] => by simp [List.lookup, beq_eq_false_iff_ne.2 hne]
  | (k1, v1) :: tl => by
    simp only [List.cons_append, List.lookup]
    cases he : k' == k1 with
    | true => rfl
    | false => exact lookup_append_single_ne hne tl

lemma lookup_dictSet_self (d : List (String × JsonVal)) (k : String) (v : JsonVal) :
    (dictSet d k v).lookup k = some v := by
  unfold dictSet
  cases hany : d.any (fun kv => kv.1 == k) with
  | true =>
    rw [if_pos rfl]
    exact lookup_map_dictSet_self d hany
  | false =>
    rw [if_neg Bool.false_ne_true]
    exact lookup_append_single_self d hany

lemma lookup_dictSet_ne (d : List (String × JsonVal)) (k : String) (v : JsonVal)
    (k' : String) (hne : k' ≠ k) :
    (dictSet d k v).lookup k' = d.lookup k' := by
  unfold dictSet
  split
  · exact lookup_map_dictSet hne d
  · exact lookup_append_single_ne hne d

lemma keys_dictSet (d : List (String × JsonVal)) (k : String) (v : JsonVal) :
    (dictSet d k v).map Prod.fst = d.map Prod.fst ∨
    (dictSet d k v).map Prod.fst = d.map Prod.fst ++ [k] := by
  unfold dictSet
  split
  · left
    rw [List.map_map]
    apply List.map_congr_left
    intro kv _
    by_cases hk : kv.1 = k <;> simp [hk]
  · right
    simp

/-- C5: for a manifest directory containing the pcp manifest entry as a
JSON document, the update writes back the document with exactly the
`results` key replaced by three descriptors for the unit's three final
relative paths (persistence flag true, no return code), every other key
bound as before, and the key sequence preserved (up to appending `results`
if it was absent). -/
theorem C5_manifest_update (fs : FS) (metadata_dir : Path) (archive_name : String)
    (fields : List (String × JsonVal))
    (h : readFile? fs (metadata_dir ++ ["insights.specs.Specs.pcp_raw_data.json"])
      = some (.jsonDoc fields)) :
    update_pcp_metadata_json fs metadata_dir archive_name
      = (.ok (), writeFile fs (metadata_dir ++ ["insights.specs.Specs.pcp_raw_data.json"])
          (.jsonDoc (dictSet fields "results"
            (.descriptors (pcpNewResults archive_name))))) ∧
    (dictSet fields "results" (.descriptors (pcpNewResults archive_name))).lookup "results"
      = some (.descriptors (pcpNewResults archive_name)) ∧
    (∀ k, k ≠ "results" →
      (dictSet fields "results" (.descriptors (pcpNewResults archive_name))).lookup k
        = fields.lookup k) ∧
    ((dictSet fields "results" (.descriptors (pcpNewResults archive_name))).map Prod.fst
        = fields.map Prod.fst ∨
     (dictSet fields "results" (.descriptors (pcpNewResults archive_name))).map Prod.fst
        = fields.map Prod.fst ++ ["results"]) ∧
    (pcpNewResults archive_name).map (fun d => d.relative_path)
      = pcpExpectedFiles archive_name ∧
    (∀ d ∈ pcpNewResults archive_name, d.save_as = true ∧ d.rc = none) ∧
    (pcpExpectedFiles archive_name).length = 3 := by
  have hex : pathExists fs (metadata_dir ++ ["insights.specs.Specs.pcp_raw_data.json"]) = true :=
    readFile?_pathExists h
  refine ⟨?_, lookup_dictSet_self _ _ _, fun k hk => lookup_dictSet_ne _ _ _ k hk,
    keys_dictSet _ _ _, ?_, ?_, by simp [pcpExpectedFiles]⟩
  · unfold update_pcp_metadata_json
    simp [hex, h]
  · unfold pcpNewResults
    rw [List.map_map]
    exact List.map_id _
  · intro d hd
    simp only [pcpNewResults, List.mem_map] at hd
    rcases hd with ⟨fp, _, rfl⟩
    exact ⟨rfl, rfl⟩

/-- A manifest directory whose pcp entry carries extra fields. -/
def fsManifest : FS :=
  { dirs := [["r"], ["r", "meta_data"]],
    files := [(["r", "meta_data", "insights.specs.Specs.pcp_raw_data.json"],
      .jsonDoc [("name", .raw "insights.specs.Specs.pcp_raw_data"),
                ("exec_time", .raw "0.1"),
                ("results", .descriptors []),
                ("ser_time", .raw "0.2")])] }

/-- Witness for C5 at a concrete manifest document. -/
theorem C5_manifest_update_witness :
    update_pcp_metadata_json fsManifest ["r", "meta_data"] "synthetic_pcp_idle"
      = (.ok (), writeFile fsManifest ["r", "meta_data", "insights.specs.Specs.pcp_raw_data.json"]
          (.jsonDoc (dictSet [("name", .raw "insights.specs.Specs.pcp_raw_data"),
                ("exec_time", .raw "0.1"),
                ("results", .descriptors []),
                ("ser_time", .raw "0.2")] "results"
            (.descriptors (pcpNewResults "synthetic_pcp_idle"))))) :=
  (C5_manifest_update fsManifest ["r", "meta_data"] "synthetic_pcp_idle" _ rfl).1

/-! ## Claim C6 -/

/-- C6: a missing time-series manifest entry file makes the manifest update
a non-fatal no-op (it returns without error and writes nothing), a run on a
bundle without the entry still completes, while a missing manifest
*directory* is fatal during layout resolution. -/
theorem C6_missing_entry_nonfatal (fs : FS) (metadata_dir : Path) (archive_name : String)
    (root : Path)
    (hmiss : pathExists fs (metadata_dir ++ ["insights.specs.Specs.pcp_raw_data.json"]) = false) :
    update_pcp_metadata_json fs metadata_dir archive_name = (.ok (), fs) ∧
    ((∀ p ∈ metadataCandidates root, pathExists fs p = false) →
      find_metadata_directory fs root
        = .error (.runtimeError "Could not find metadata directory")) ∧
    runScenarioIdle.result.toOption = some ["home", "synthetic_idle_input.tar.tar.gz"] := by
  refine ⟨?_, ?_, by decide⟩
  · unfold update_pcp_metadata_json
    simp [hmiss]
  · intro h
    have h1 := h (root ++ ["meta_data"]) (by simp [metadataCandidates])
    have h2 := h (root ++ ["metadata"]) (by simp [metadataCandidates])
    simp [find_metadata_directory, metadataCandidates, List.find?, h1, h2]

/-- Witness for C6: updating an empty filesystem is a no-op. -/
theorem C6_missing_entry_nonfatal_witness :
    update_pcp_metadata_json { dirs := [], files := [] } ["r", "meta_data"] "synthetic_pcp_idle"
      = (.ok (), { dirs := [], files := [] }) :=
  (C6_missing_entry_nonfatal { dirs := [], files := [] } ["r", "meta_data"]
    "synthetic_pcp_idle" ["r"] (by decide)).1

/-! ## Claim C10 -/

/-- C10: the compression step silently skips a target file that does not
exist (no error is raised for it), and whenever it succeeds it returns the
same three final filenames regardless of which files were actually
compressed. -/
theorem C10_compress_skips_missing (tools : ExternalTools) (fs : FS) (base_name : String)
    (work_dir : Path) :
    (∀ file_name, pathExists fs (work_dir ++ [file_name]) = false →
      xzOne tools fs work_dir file_name = (.ok (), fs)) ∧
    (pathExists fs (work_dir ++ [base_name ++ ".0"]) = false →
      pathExists fs (work_dir ++ [base_name ++ ".meta"]) = false →
      compress_pcp_files tools fs base_name work_dir = (.ok (finalUnitFiles base_name), fs)) ∧
    (∀ res fs', compress_pcp_files tools fs base_name work_dir = (.ok res, fs') →
      res = finalUnitFiles base_name) ∧
    finalUnitFiles base_name
      = [base_name ++ ".0.xz", base_name ++ ".index", base_name ++ ".meta.xz"] := by
  refine ⟨?_, ?_, ?_, ?_⟩
  · intro file_name hmiss
    unfold xzOne
    simp [hmiss]
  · intro h0 hm
    unfold compress_pcp_files xzOne
    simp [h0, hm]
  · intro res fs' h
    unfold compress_pcp_files at h
    split at h
    · exact absurd h (by simp)
    · split at h
      · exact absurd h (by simp)
      · simp only [Prod.mk.injEq, Except.ok.injEq] at h
        exact h.1.symm
  · simp only [finalUnitFiles, List.map]
    rw [String.append_assoc, String.append_assoc, String.append_assoc]
    rfl

/-- Witness for C10: on an empty filesystem both targets are missing and
compression succeeds with the fixed three names. -/
theorem C10_compress_skips_missing_witness :
    compress_pcp_files (toolsFor "synthetic_pcp_idle") { dirs := [], files := [] }
      "synthetic_pcp_idle" ["w"]
      = (.ok (finalUnitFiles "synthetic_pcp_idle"), { dirs := [], files := [] }) :=
  (C10_compress_skips_missing (toolsFor "synthetic_pcp_idle") { dirs := [], files := [] }
    "synthetic_pcp_idle" ["w"]).2.1 (by decide) (by decide)

/-! ## Claim C9 -/

/-- C9: with no output name supplied, the pipeline derives the output
archive name as `synthetic_{profile}_{stem}.tar.gz` where the stem is the
input filename with only its final extension removed; in particular
`host.tar.gz` has stem `host.tar`, so the output carries a doubled
extension. -/
theorem C9_output_name_derivation (tools : ExternalTools) (fs : FS) (cwd : Path)
    (input_archive_path : Path) (archive : InputArchive) (pattern_type : String) (q : Path)
    (h : (process_insights_archive tools fs cwd input_archive_path archive
        pattern_type none).result = .ok q) :
    q = cwd ++ ["synthetic_" ++ pattern_type ++ "_"
        ++ splitextStem ((input_archive_path.getLast?).getD "") ++ ".tar.gz"] ∧
    splitextStem "host.tar.gz" = "host.tar" := by
  refine ⟨?_, by decide⟩
  unfold process_insights_archive at h
  dsimp only at h
  repeat' split at h
  all_goals simp_all [abortRun, create_insights_archive]

/-- Witness for C9: a run on `host.tar.gz` with profile `idle` returns the
archive `synthetic_idle_host.tar.tar.gz`. -/
theorem C9_output_name_derivation_witness :
    (["home", "synthetic_idle_host.tar.tar.gz"] : Path)
      = ["home"] ++ ["synthetic_" ++ "idle" ++ "_"
          ++ splitextStem (((["home", "host.tar.gz"] : Path).getLast?).getD "") ++ ".tar.gz"] ∧
    splitextStem "host.tar.gz" = "host.tar" :=
  C9_output_name_derivation (toolsFor "synthetic_pcp_idle") homeFS ["home"]
    ["home", "host.tar.gz"] bundleStd "idle" ["home", "synthetic_idle_host.tar.tar.gz"] rfl

/-! ## Claim C8 -/

lemma cleanupTemp_removes (fs : FS) (temp p : Path) (hp : temp.isPrefixOf p = true) :
    pathExists (cleanupTemp fs temp) p = false := by
  unfold pathExists cleanupTemp
  apply Bool.eq_false_iff.2
  intro hc
  rw [Bool.or_eq_true] at hc
  rcases hc with hc | hc
  · have hm : p ∈ fs.dirs.filter (fun d => !(temp.isPrefixOf d)) := by simpa using hc
    have := (List.mem_filter.1 hm).2
    simp [hp] at this
  · rw [List.any_eq_true] at hc
    rcases hc with ⟨f, hf, hq⟩
    have hm := (List.mem_filter.1 hf).2
    have : f.1 = p := by simpa using hq
    rw [this] at hm
    simp [hp] at hm

/-- C8: whether the run returns successfully or aborts with an error at any
step, no path under the scratch directory created for the run exists on
disk afterwards. -/
theorem C8_scratch_cleanup (tools : ExternalTools) (fs : FS) (cwd : Path)
    (input_archive_path : Path) (archive : InputArchive) (pattern_type : String)
    (output_name? : Option String) (p : Path)
    (hp : tempDir.isPrefixOf p = true)
    (h0 : pathExists fs p = false) :
    pathExists (process_insights_archive tools fs cwd input_archive_path archive
        pattern_type output_name?).fs p = false := by
  unfold process_insights_archive abortRun
  dsimp only
  repeat' split
  all_goals first
    | exact h0
    | exact cleanupTemp_removes _ _ _ hp

/-- Witness for C8: after the example run nothing under the scratch
directory exists. -/
theorem C8_scratch_cleanup_witness :
    pathExists runScenarioIdle.fs ["tmp", "scratch", "insights-host"] = false :=
  C8_scratch_cleanup (toolsFor "synthetic_pcp_idle") homeFS ["home"]
    ["home", "input.tar.gz"] bundleStd "idle" none ["tmp", "scratch", "insights-host"]
    (by decide) (by decide)

/-! ## Claim C4 -/

lemma str_append_left_cancel_ne (a : String) {b c : String} (h : b ≠ c) :
    a ++ b ≠ a ++ c := by
  intro he
  have h2 : (a ++ b).data = (a ++ c).data := congrArg String.data he
  simp [String.data_append] at h2
  exact h (String.ext h2)

lemma any_key_filter_ne {p q : Path} (hq : q ≠ p) :
    ∀ l : List (Path × FileData),
      (l.filter (fun f => f.1 != p)).any (fun f => f.1 == q) = l.any (fun f => f.1 == q)
  | [] => rfl
  | f :: tl => by
    cases hfp : f.1 == p with
    | true =>
      have hne : (f.1 != p) = false := by simp [bne, hfp]
      have hfq : (f.1 == q) = false :=
        beq_eq_false_iff_ne.2 (by rw [eq_of_beq hfp]; exact Ne.symm hq)
      simp [List.filter_cons, hne, hfq, any_key_filter_ne hq tl]
    | false =>
      have hne : (f.1 != p) = true := by simp [bne, hfp]
      simp [List.filter_cons, hne, List.any_cons, any_key_filter_ne hq tl]

lemma pathExists_removeFile_ne (fs : FS) (p q : Path) (hq : q ≠ p) :
    pathExists (removeFile fs p) q = pathExists fs q := by
  unfold pathExists removeFile
  rw [any_key_filter_ne hq]

lemma pathExists_writeFile_ne (fs : FS) (p q : Path) (d : FileData) (hq : q ≠ p) :
    pathExists (writeFile fs p d) q = pathExists fs q := by
  unfold pathExists writeFile
  have hpq : ((p, d).1 == q) = false := beq_eq_false_iff_ne.2 (Ne.symm hq)
  rw [List.any_append]
  simp only [List.any_cons, List.any_nil, hpq, Bool.false_or, Bool.or_false]
  rw [any_key_filter_ne hq]

/-- When the generator step succeeds, its verification guarantees both
compression targets exist in the resulting filesystem. -/
lemma generate_ok_exists {tools : ExternalTools} {fs fs' : FS} {base : String} {wd : Path}
    {req : List String}
    (h : generate_native_pcp_archive tools fs base wd = (.ok req, fs')) :
    pathExists fs' (wd ++ [base ++ ".0"]) = true ∧
    pathExists fs' (wd ++ [base ++ ".meta"]) = true := by
  unfold generate_native_pcp_archive at h
  dsimp only at h
  split at h
  · exact absurd h (by simp)
  · split at h
    · exact absurd h (by simp)
    next hnone =>
      simp only [Prod.mk.injEq, Except.ok.injEq] at h
      obtain ⟨_, rfl⟩ := h
      have hall := List.find?_eq_none.1 hnone
      constructor
      · have h0 := hall (base ++ "." ++ "0") (by simp [pcpExts])
        rw [String.append_assoc] at h0
        simpa using h0
      · have h0 := hall (base ++ "." ++ "meta") (by simp [pcpExts])
        rw [String.append_assoc] at h0
        simpa using h0

/-- When both targets exist and the compressor rejects the first of them it
is asked to handle, compression fails with the message naming that file. -/
lemma compress_fails {tools : ExternalTools} {fs : FS} {base : String} {wd : Path} {f : String}
    (h0 : pathExists fs (wd ++ [base ++ ".0"]) = true)
    (hm : pathExists fs (wd ++ [base ++ ".meta"]) = true)
    (hf : ([base ++ ".0", base ++ ".meta"].find? (fun t => tools.xzExit t != 0)) = some f) :
    (compress_pcp_files tools fs base wd).1
      = .error (.runtimeError ("Failed to compress " ++ f ++ ": " ++ tools.xzStderr)) := by
  unfold compress_pcp_files xzOne
  cases hx0 : tools.xzExit (base ++ ".0") == 0 with
  | false =>
    have hf0 : f = base ++ ".0" := by
      simp [List.find?, bne, hx0] at hf
      exact hf.symm
    subst hf0
    simp [h0, hx0]
  | true =>
    cases hxm : tools.xzExit (base ++ ".meta") == 0 with
    | true =>
      simp [List.find?, bne, hx0, hxm] at hf
    | false =>
      have hfm : f = base ++ ".meta" := by
        simp [List.find?, bne, hx0, hxm] at hf
        exact hf.symm
      subst hfm
      have hne0 : (wd ++ [base ++ ".meta"]) ≠ wd ++ [base ++ ".0"] := by
        intro he
        have h2 := List.append_cancel_left he
        simp only [List.cons.injEq, and_true] at h2
        exact str_append_left_cancel_ne base (by decide) h2
      have hnex : (wd ++ [base ++ ".meta"]) ≠ wd ++ [base ++ ".0" ++ ".xz"] := by
        intro he
        have h2 := List.append_cancel_left he
        simp only [List.cons.injEq, and_true] at h2
        rw [String.append_assoc] at h2
        exact str_append_left_cancel_ne base (by decide) h2
      have hm1 : pathExists (writeFile (removeFile fs (wd ++ [base ++ ".0"]))
          (wd ++ [base ++ ".0" ++ ".xz"])
          ((readFile? fs (wd ++ [base ++ ".0"])).getD (.text "")))
          (wd ++ [base ++ ".meta"]) = true := by
        rw [pathExists_writeFile_ne _ _ _ _ hnex, pathExists_removeFile_ne _ _ _ hne0]
        exact hm
      simp [h0, hx0, hm1, hxm]

/-- C4: in every run that reaches the compression step, if the external
compressor rejects a target file then the run fails with the
compression error naming that file, no output archive is produced, and no
later pipeline step (manifest update, provenance injection, repackaging)
runs. -/
theorem C4_compression_atomicity (tools : ExternalTools) (fs : FS) (cwd : Path)
    (input_archive_path : Path) (archive : InputArchive) (pattern_type : String)
    (output_name? : Option String) (f : String)
    (h1 : "compress" ∈ (process_insights_archive tools fs cwd input_archive_path archive
        pattern_type output_name?).events)
    (hf : ([("synthetic_pcp_" ++ pattern_type) ++ ".0",
            ("synthetic_pcp_" ++ pattern_type) ++ ".meta"].find?
        (fun t => tools.xzExit t != 0)) = some f) :
    (process_insights_archive tools fs cwd input_archive_path archive
        pattern_type output_name?).result
      = .error (.runtimeError ("Failed to compress " ++ f ++ ": " ++ tools.xzStderr)) ∧
    (process_insights_archive tools fs cwd input_archive_path archive
        pattern_type output_name?).packed = none ∧
    "update_manifest" ∉ (process_insights_archive tools fs cwd input_archive_path archive
        pattern_type output_name?).events ∧
    "inject" ∉ (process_insights_archive tools fs cwd input_archive_path archive
        pattern_type output_name?).events ∧
    "pack" ∉ (process_insights_archive tools fs cwd input_archive_path archive
        pattern_type output_name?).events := by
  unfold process_insights_archive abortRun at h1 ⊢
  dsimp only at h1 ⊢
  split at h1
  · dsimp only at h1
    exact absurd h1 (by decide)
  · split at h1
    next e fsE heq_ex =>
      dsimp only at h1
      exact absurd h1 (by decide)
    next main_dir fs1 heq_ex =>
      split at h1
      next e heq_pcp =>
        dsimp only at h1
        exact absurd h1 (by decide)
      next pcp_dir heq_pcp =>
        split at h1
        next e heq_md =>
          dsimp only at h1
          exact absurd h1 (by decide)
        next metadata_dir heq_md =>
          split at h1
          next e fsG heq_gen =>
            dsimp only at h1
            exact absurd h1 (by decide)
          next gen_files fs3 heq_gen =>
            obtain ⟨hx0, hxm⟩ := generate_ok_exists heq_gen
            have hcf := compress_fails hx0 hxm hf
            split at h1
            next e fsC heq_c =>
              rw [heq_c] at hcf
              dsimp only at hcf
              injection hcf with hinj
              subst hinj
              split
              next hcond => exact absurd hcond (by assumption)
              next =>
                refine ⟨rfl, rfl, ?_, ?_, ?_⟩ <;> (dsimp only; decide)
            next compressed fs4 heq_c =>
              rw [heq_c] at hcf
              simp at hcf

/-- Tools whose compressor fails on the second target file of the unit. -/
def toolsXzFailMeta : ExternalTools :=
  { genExit := 0, genStderr := "",
    genFiles := [("synthetic_pcp_idle.0", .text "samples"),
                 ("synthetic_pcp_idle.index", .text "index"),
                 ("synthetic_pcp_idle.meta", .text "metadata")],
    xzExit := fun t => if t == "synthetic_pcp_idle.meta" then 1 else 0,
    xzStderr := "xz: cannot write" }

/-- Witness for C4: the compressor fails on the second of the two target
files; the run fails with the compression error and no archive exists. -/
theorem C4_compression_atomicity_witness :
    (process_insights_archive toolsXzFailMeta homeFS ["home"] ["home", "input.tar.gz"]
        bundleStd "idle" none).result
      = .error (.runtimeError ("Failed to compress " ++ "synthetic_pcp_idle.meta" ++ ": "
          ++ toolsXzFailMeta.xzStderr)) ∧
    (process_insights_archive toolsXzFailMeta homeFS ["home"] ["home", "input.tar.gz"]
        bundleStd "idle" none).packed = none ∧
    "update_manifest" ∉ (process_insights_archive toolsXzFailMeta homeFS ["home"]
        ["home", "input.tar.gz"] bundleStd "idle" none).events ∧
    "inject" ∉ (process_insights_archive toolsXzFailMeta homeFS ["home"]
        ["home", "input.tar.gz"] bundleStd "idle" none).events ∧
    "pack" ∉ (process_insights_archive toolsXzFailMeta homeFS ["home"]
        ["home", "input.tar.gz"] bundleStd "idle" none).events :=
  C4_compression_atomicity toolsXzFailMeta homeFS ["home"] ["home", "input.tar.gz"]
    bundleStd "idle" none "synthetic_pcp_idle.meta" (by decide) (by decide)

/-! ## Claim C7 -/

/-- The audit result the orchestrator captures right after extraction
(`none` when extraction itself fails to expose a main directory). -/
def auditOutcome (fs : FS) (archive : InputArchive) : Option Bool :=
  match extract_insights_archive (mkScratch fs) archive tempDir with
  | (.ok main_dir, fs1) => some (check_cloud_metadata_exists fs1 main_dir)
  | (.error _, _) => none

/-- The name of `p` as a direct child of `d`, filtered by `keep`. -/
def childKeep? (d : Path) (keep : String → Bool) (p : Path) : Option String :=
  match childName? d p with
  | some n => if keep n then some n else none
  | none => none

/-- Files directly inside `d` whose names satisfy `keep`, with contents. -/
def childFilesP (l : List (Path × FileData)) (d : Path) (keep : String → Bool) :
    List (String × FileData) :=
  l.filterMap (fun f => (childKeep? d keep f.1).map (fun n => (n, f.2)))

lemma childName?_some_eq {d q : Path} {n : String} (h : childName? d q = some n) :
    q = d ++ [n] := by
  unfold childName? at h
  split at h
  next hcond =>
    split at h
    next m heq =>
      injection h with h
      subst h
      have : q.take d.length = d := by
        have := hcond
        exact eq_of_beq this
      conv_lhs => rw [← List.take_append_drop d.length q]
      rw [this, heq]
    next => exact absurd h (by simp)
  next => exact absurd h (by simp)

lemma childName?_length {d q : Path} {n : String} (h : childName? d q = some n) :
    q.length = d.length + 1 := by
  rw [childName?_some_eq h]
  simp

lemma childName?_none_of_length {d q : Path} (h : q.length ≠ d.length + 1) :
    childName? d q = none := by
  cases hc : childName? d q with
  | none => rfl
  | some n => exact absurd (childName?_length hc) h

lemma childName?_append_lift : ∀ (x u v : Path), childName? (x ++ u) (x ++ v) = childName? u v
  | [], u, v => rfl
  | a :: x, u, v => by
    show childName? (a :: (x ++ u)) (a :: (x ++ v)) = childName? u v
    unfold childName?
    simp only [List.length_cons, List.take_succ_cons, List.drop_succ_cons, List.cons_beq_cons,
      beq_self_eq_true, Bool.true_and]
    exact childName?_append_lift x u v

lemma childKeep?_append_lift (x u v : Path) (keep : String → Bool) :
    childKeep? (x ++ u) keep (x ++ v) = childKeep? u keep v := by
  unfold childKeep?
  rw [childName?_append_lift]

lemma filterMap_filter_of_none {α β : Type} (g : α → Option β) (q : α → Bool)
    (h : ∀ a, q a = false → g a = none) :
    ∀ l : List α, (l.filter q).filterMap g = l.filterMap g
  | [] => rfl
  | a :: tl => by
    cases hq : q a with
    | true =>
      have h1 : (a :: tl).filter q = a :: tl.filter q := by simp [List.filter_cons, hq]
      rw [h1, List.filterMap_cons, List.filterMap_cons]
      cases g a with
      | none => exact filterMap_filter_of_none g q h tl
      | some b => rw [filterMap_filter_of_none g q h tl]
    | false =>
      have h1 : (a :: tl).filter q = tl.filter q := by simp [List.filter_cons, hq]
      rw [h1, List.filterMap_cons, h a hq]
      exact filterMap_filter_of_none g q h tl

lemma childFilesP_writeFile (fs : FS) (p : Path) (c : FileData) (d : Path)
    (keep : String → Bool) (hp : childKeep? d keep p = none) :
    childFilesP (writeFile fs p c).files d keep = childFilesP fs.files d keep := by
  unfold childFilesP writeFile
  rw [List.filterMap_append]
  simp only [List.filterMap_cons, List.filterMap_nil, hp, Option.map_none', List.append_nil]
  exact filterMap_filter_of_none _ _
    (fun f hf => by
      have : f.1 = p := bne_eq_false_iff_eq.mp hf
      rw [this, hp, Option.map_none'])
    fs.files

lemma childFilesP_removeFile (fs : FS) (p : Path) (d : Path)
    (keep : String → Bool) (hp : childKeep? d keep p = none) :
    childFilesP (removeFile fs p).files d keep = childFilesP fs.files d keep := by
  unfold childFilesP removeFile
  exact filterMap_filter_of_none _ _
    (fun f hf => by
      have : f.1 = p := bne_eq_false_iff_eq.mp hf
      rw [this, hp, Option.map_none'])
    fs.files

lemma childFilesP_removeFilesIn (fs : FS) (w : Path) (d : Path) (keep : String → Bool)
    (hw : ∀ n : String, childKeep? d keep (w ++ [n]) = none) :
    childFilesP (removeFilesIn fs w).files d keep = childFilesP fs.files d keep := by
  unfold childFilesP removeFilesIn
  exact filterMap_filter_of_none _ _
    (fun f hf => by
      cases hc : childName? w f.1 with
      | none => simp [hc] at hf
      | some n =>
        rw [childName?_some_eq hc, hw n, Option.map_none'])
    fs.files

lemma childKeep?_none_of_length {d q : Path} (keep : String → Bool)
    (h : q.length ≠ d.length + 1) : childKeep? d keep q = none := by
  unfold childKeep?
  rw [childName?_none_of_length h]

lemma childFilesP_foldl_writes (wd d : Path) (keep : String → Bool)
    (hw : ∀ n : String, childKeep? d keep (wd ++ [n]) = none) :
    ∀ (l : List (String × FileData)) (fs : FS),
      childFilesP ((l.foldl (fun acc nf => writeFile acc (wd ++ [nf.1]) nf.2) fs)).files d keep
        = childFilesP fs.files d keep
  | [], fs => rfl
  | nf :: tl, fs => by
    rw [List.foldl_cons, childFilesP_foldl_writes wd d keep hw tl,
      childFilesP_writeFile _ _ _ _ _ (hw nf.1)]

lemma childFilesP_foldl_cleanup (wd d : Path) (base : String) (keep : String → Bool)
    (hw : ∀ n : String, childKeep? d keep (wd ++ [n]) = none) :
    ∀ (exts : List String) (fs : FS),
      childFilesP ((exts.foldl (fun acc ext =>
          if pathExists acc (wd ++ [base ++ "." ++ ext]) then
            removeFile acc (wd ++ [base ++ "." ++ ext])
          else acc) fs)).files d keep
        = childFilesP fs.files d keep
  | [], fs => rfl
  | ext :: tl, fs => by
    rw [List.foldl_cons, childFilesP_foldl_cleanup wd d base keep hw tl]
    by_cases hp : pathExists fs (wd ++ [base ++ "." ++ ext]) = true
    · rw [if_pos hp, childFilesP_removeFile _ _ _ _ (hw (base ++ "." ++ ext))]
    · rw [if_neg hp]

lemma childFilesP_generate (tools : ExternalTools) (fs : FS) (base : String) (wd d : Path)
    (keep : String → Bool)
    (hw : ∀ n : String, childKeep? d keep (wd ++ [n]) = none) :
    childFilesP (generate_native_pcp_archive tools fs base wd).2.files d keep
      = childFilesP fs.files d keep := by
  unfold generate_native_pcp_archive
  dsimp only
  split
  · rw [childFilesP_foldl_writes wd d keep hw,
      childFilesP_foldl_cleanup wd d base keep hw]
  · split <;>
      rw [childFilesP_foldl_writes wd d keep hw,
        childFilesP_foldl_cleanup wd d base keep hw]

lemma childFilesP_xzOne (tools : ExternalTools) (fs : FS) (wd : Path) (name : String)
    (d : Path) (keep : String → Bool)
    (hw : ∀ n : String, childKeep? d keep (wd ++ [n]) = none) :
    childFilesP (xzOne tools fs wd name).2.files d keep = childFilesP fs.files d keep := by
  unfold xzOne
  dsimp only
  split
  · split
    · rw [childFilesP_writeFile _ _ _ _ _ (hw (name ++ ".xz")),
        childFilesP_removeFile _ _ _ _ (hw name)]
    · rfl
  · rfl

lemma childFilesP_compress (tools : ExternalTools) (fs : FS) (base : String) (wd d : Path)
    (keep : String → Bool)
    (hw : ∀ n : String, childKeep? d keep (wd ++ [n]) = none) :
    childFilesP (compress_pcp_files tools fs base wd).2.files d keep
      = childFilesP fs.files d keep := by
  unfold compress_pcp_files
  split
  next e fs' heq =>
    have h1 := childFilesP_xzOne tools fs wd (base ++ ".0") d keep hw
    rw [heq] at h1
    exact h1
  next u fs1 heq =>
    have h1 := childFilesP_xzOne tools fs wd (base ++ ".0") d keep hw
    rw [heq] at h1
    dsimp only at h1
    split
    next e fs' heq2 =>
      have h2 := childFilesP_xzOne tools fs1 wd (base ++ ".meta") d keep hw
      rw [heq2] at h2
      dsimp only at h2
      rw [h2, h1]
    next u2 fs2 heq2 =>
      have h2 := childFilesP_xzOne tools fs1 wd (base ++ ".meta") d keep hw
      rw [heq2] at h2
      dsimp only at h2
      dsimp only
      rw [h2, h1]

lemma childFilesP_update (fs : FS) (metadata_dir : Path) (archive_name : String)
    (d : Path) (keep : String → Bool)
    (hj : childKeep? d keep (metadata_dir ++ ["insights.specs.Specs.pcp_raw_data.json"]) = none) :
    childFilesP (update_pcp_metadata_json fs metadata_dir archive_name).2.files d keep
      = childFilesP fs.files d keep := by
  unfold update_pcp_metadata_json
  dsimp only
  split
  · rfl
  · split
    · exact childFilesP_writeFile _ _ _ _ _ hj
    · rfl

lemma find_pcp_ok_cases {fs : FS} {main p : Path}
    (h : find_pcp_directory fs main = .ok p) :
    p = main ++ ["data", "var", "log", "pcp", "pmlogger"] ∨
    p = main ++ ["var", "log", "pcp", "pmlogger"] := by
  unfold find_pcp_directory at h
  split at h
  next q heq =>
    injection h with h
    subst h
    have := List.mem_of_find?_eq_some heq
    simpa [pcpCandidates] using this
  next => exact absurd h (by simp)

lemma find_metadata_ok_cases {fs : FS} {main p : Path}
    (h : find_metadata_directory fs main = .ok p) :
    p = main ++ ["meta_data"] ∨ p = main ++ ["metadata"] := by
  unfold find_metadata_directory at h
  split at h
  next q heq =>
    injection h with h
    subst h
    have := List.mem_of_find?_eq_some heq
    simpa [metadataCandidates] using this
  next => exact absurd h (by simp)

lemma extract_ok_spec {fs0 fs1 : FS} {archive : InputArchive} {main_dir : Path}
    (h : extract_insights_archive fs0 archive tempDir = (.ok main_dir, fs1)) :
    (∃ item : String, main_dir = tempDir ++ [item]) ∧
    fs1 = { dirs := fs0.dirs ++ archive.dirs.map (fun d => tempDir ++ d),
            files := fs0.files ++ archive.files.map (fun f => (tempDir ++ f.1, f.2)) } := by
  unfold extract_insights_archive at h
  dsimp only at h
  split at h
  next item heq =>
    simp only [Prod.mk.injEq, Except.ok.injEq] at h
    exact ⟨⟨item, h.1.symm⟩, h.2.symm⟩
  next => exact absurd h (by simp)

lemma childFilesP_extract (fs0 : FS) (archive : InputArchive) (rel : Path)
    (keep : String → Bool)
    (hfresh : ∀ f ∈ fs0.files, tempDir.isPrefixOf f.1 = false) :
    childFilesP (fs0.files ++ archive.files.map (fun f => (tempDir ++ f.1, f.2)))
        (tempDir ++ rel) keep
      = childFilesP archive.files rel keep := by
  unfold childFilesP
  rw [List.filterMap_append]
  have h1 : fs0.files.filterMap
      (fun f => (childKeep? (tempDir ++ rel) keep f.1).map (fun n => (n, f.2))) = [] := by
    rw [List.filterMap_eq_nil_iff]
    intro f hf
    cases hc : childName? (tempDir ++ rel) f.1 with
    | none => simp [childKeep?, hc]
    | some n =>
      have := childName?_some_eq hc
      have hpre : tempDir.isPrefixOf f.1 = true := by
        rw [this]
        have : tempDir <+: tempDir ++ rel ++ [n] := by
          rw [List.append_assoc]
          exact List.prefix_append tempDir (rel ++ [n])
        exact List.isPrefixOf_iff_prefix.2 this
      rw [hfresh f hf] at hpre
      exact absurd hpre (by simp)
  rw [h1, List.nil_append, List.filterMap_map]
  apply List.filterMap_congr
  intro f _
  simp only [Function.comp]
  rw [childKeep?_append_lift]

lemma childFilesP_pack (l : List (Path × FileData)) (item : String) (rel : Path)
    (keep : String → Bool) :
    childFilesP (l.filterMap (fun f =>
        if (tempDir ++ [item]).isPrefixOf f.1 then some (f.1.drop tempDir.length, f.2)
        else none)) ([item] ++ rel) keep
      = childFilesP l (tempDir ++ [item] ++ rel) keep := by
  unfold childFilesP
  rw [List.filterMap_filterMap]
  apply List.filterMap_congr
  intro f _
  cases hp : (tempDir ++ [item]).isPrefixOf f.1 with
  | true =>
    rw [if_pos rfl]
    obtain ⟨s, hs⟩ := List.isPrefixOf_iff_prefix.1 hp
    rw [← hs]
    have hdrop : ((tempDir ++ [item]) ++ s).drop tempDir.length = [item] ++ s := by
      rw [List.append_assoc]
      exact List.drop_left _ _
    rw [hdrop]
    show (childKeep? ([item] ++ rel) keep ([item] ++ s)).map (fun n => (n, f.2)) = _
    rw [childKeep?_append_lift, childKeep?_append_lift]
  | false =>
    rw [if_neg Bool.false_ne_true]
    cases hc : childKeep? (tempDir ++ [item] ++ rel) keep f.1 with
    | none => simp [hc]
    | some n =>
      exfalso
      have hcn : childName? (tempDir ++ [item] ++ rel) f.1 = some n := by
        unfold childKeep? at hc
        split at hc
        next m heqm =>
          split at hc
          · injection hc with hc; subst hc; exact heqm
          · exact absurd hc (by simp)
        next => exact absurd hc (by simp)
      have := childName?_some_eq hcn
      have hpre : (tempDir ++ [item]).isPrefixOf f.1 = true := by
        rw [this]
        apply List.isPrefixOf_iff_prefix.2
        rw [List.append_assoc, List.append_assoc]
        exact List.prefix_append _ _
      rw [hp] at hpre
      exact absurd hpre (by simp)

/-- Between extraction and repackaging, an audit-positive run leaves the
files of `main_dir ++ rel` selected by `keep` untouched, provided the
written paths are disjoint from that selection. -/
lemma frame_to_fs5 (rel : Path) (keep : String → Bool) (tools : ExternalTools)
    (fs1 fs3 fs4 fs5 : FS) (main_dir pcp_dir metadata_dir : Path) (abn : String)
    (gf cf : List String) (u : Unit)
    (heq_gen : generate_native_pcp_archive tools (removeFilesIn fs1 pcp_dir) abn pcp_dir
      = (.ok gf, fs3))
    (heq_c : compress_pcp_files tools fs3 abn pcp_dir = (.ok cf, fs4))
    (heq_up : update_pcp_metadata_json fs4 metadata_dir abn = (.ok u, fs5))
    (hdisj_pcp : ∀ n : String, childKeep? (main_dir ++ rel) keep (pcp_dir ++ [n]) = none)
    (hdisj_md : childKeep? (main_dir ++ rel) keep
        (metadata_dir ++ ["insights.specs.Specs.pcp_raw_data.json"]) = none) :
    childFilesP fs5.files (main_dir ++ rel) keep
      = childFilesP fs1.files (main_dir ++ rel) keep := by
  have h5 := childFilesP_update fs4 metadata_dir abn (main_dir ++ rel) keep hdisj_md
  rw [heq_up] at h5
  dsimp only at h5
  have h4 := childFilesP_compress tools fs3 abn pcp_dir (main_dir ++ rel) keep hdisj_pcp
  rw [heq_c] at h4
  dsimp only at h4
  have h3 := childFilesP_generate tools (removeFilesIn fs1 pcp_dir) abn pcp_dir
    (main_dir ++ rel) keep hdisj_pcp
  rw [heq_gen] at h3
  dsimp only at h3
  have h2 := childFilesP_removeFilesIn fs1 pcp_dir (main_dir ++ rel) keep hdisj_pcp
  rw [h5, h4, h3, h2]

lemma hdisj_pcp_of_rel (main rel pcpRel : Path) (keep : String → Bool)
    (hlen : ∀ n : String, (pcpRel ++ [n]).length ≠ rel.length + 1) :
    ∀ n : String, childKeep? (main ++ rel) keep ((main ++ pcpRel) ++ [n]) = none := by
  intro n
  rw [List.append_assoc, childKeep?_append_lift]
  exact childKeep?_none_of_length keep (hlen n)

lemma create_packed_spec (fs : FS) (cwd : Path) (item : String) (oname : String) :
    (create_insights_archive fs cwd (tempDir ++ [item]) oname).1.2
      = { rootName := item,
          dirs := fs.dirs.filterMap (fun q =>
            if (tempDir ++ [item]).isPrefixOf q then some (q.drop tempDir.length) else none),
          files := fs.files.filterMap (fun f =>
            if (tempDir ++ [item]).isPrefixOf f.1 then some (f.1.drop tempDir.length, f.2)
            else none) } := by
  unfold create_insights_archive
  simp [List.getLast?_concat, List.dropLast_concat]

/-- Is `n` the filename of one of the embedded provenance templates? -/
def templateName (n : String) : Bool :=
  (AWS_METADATA_TEMPLATES.map Prod.fst).contains n

/-- In an audit-positive run, the packed archive carries the input bundle's
command-output files and template-named manifest files unchanged. -/
lemma audit_positive_frame (tools : ExternalTools) (fs : FS) (cwd : Path)
    (input_archive_path : Path) (archive : InputArchive) (pattern_type : String)
    (output_name? : Option String) (a : PackedArchive)
    (haudit : auditOutcome fs archive = some true)
    (hfresh : ∀ f ∈ fs.files, tempDir.isPrefixOf f.1 = false)
    (hpk : (process_insights_archive tools fs cwd input_archive_path archive
        pattern_type output_name?).packed = some a) :
    childFilesP a.files ([a.rootName] ++ ["data", "insights_commands"]) (fun _ => true)
      = childFilesP archive.files ([a.rootName] ++ ["data", "insights_commands"])
          (fun _ => true) ∧
    childFilesP a.files ([a.rootName] ++ ["meta_data"]) templateName
      = childFilesP archive.files ([a.rootName] ++ ["meta_data"]) templateName ∧
    childFilesP a.files ([a.rootName] ++ ["metadata"]) templateName
      = childFilesP archive.files ([a.rootName] ++ ["metadata"]) templateName := by
  unfold process_insights_archive abortRun at hpk
  dsimp only at hpk
  split at hpk
  · simp at hpk
  · split at hpk
    next e fsE heq_ex => simp at hpk
    next main_dir fs1 heq_ex =>
      have haud : check_cloud_metadata_exists fs1 main_dir = true := by
        unfold auditOutcome at haudit
        rw [heq_ex] at haudit
        simpa using haudit
      split at hpk
      next e heq => simp at hpk
      next pcp_dir heq_pcp =>
        split at hpk
        next e heq => simp at hpk
        next metadata_dir heq_md =>
          split at hpk
          next e fsG heq => simp at hpk
          next gf fs3 heq_gen =>
            split at hpk
            next e fsC heq => simp at hpk
            next cf fs4 heq_c =>
              split at hpk
              next f heq => simp at hpk
              next heq_ver =>
                split at hpk
                next e fsU heq => simp at hpk
                next u fs5 heq_up =>
                  rw [if_pos haud] at hpk
                  dsimp only at hpk
                  simp only [Option.some.injEq] at hpk
                  subst hpk
                  obtain ⟨⟨item, hmain⟩, hfs1⟩ := extract_ok_spec heq_ex
                  subst hmain
                  rw [create_packed_spec]
                  dsimp only
                  refine ⟨?_, ?_, ?_⟩
                  · have hdisj_pcp : ∀ n : String,
                        childKeep? ((tempDir ++ [item]) ++ ["data", "insights_commands"])
                          (fun _ => true) (pcp_dir ++ [n]) = none := by
                      rcases find_pcp_ok_cases heq_pcp with hp | hp <;> subst hp <;>
                        exact hdisj_pcp_of_rel _ _ _ _ (by intro n; simp)
                    have hdisj_md : childKeep? ((tempDir ++ [item])
                          ++ ["data", "insights_commands"]) (fun _ => true)
                        (metadata_dir ++ ["insights.specs.Specs.pcp_raw_data.json"]) = none := by
                      rcases find_metadata_ok_cases heq_md with hm | hm <;> subst hm <;>
                        (simp only [List.append_assoc, childKeep?_append_lift]; decide)
                    have hchain := frame_to_fs5 ["data", "insights_commands"] (fun _ => true)
                      tools fs1 fs3 fs4 fs5 (tempDir ++ [item]) pcp_dir metadata_dir
                      ("synthetic_pcp_" ++ pattern_type) gf cf u heq_gen heq_c heq_up
                      hdisj_pcp hdisj_md
                    rw [childFilesP_pack, hchain, hfs1]
                    dsimp only
                    rw [List.append_assoc]
                    exact childFilesP_extract fs archive ([item] ++ ["data", "insights_commands"])
                      (fun _ => true) hfresh
                  · have hdisj_pcp : ∀ n : String,
                        childKeep? ((tempDir ++ [item]) ++ ["meta_data"]) templateName
                          (pcp_dir ++ [n]) = none := by
                      rcases find_pcp_ok_cases heq_pcp with hp | hp <;> subst hp <;>
                        exact hdisj_pcp_of_rel _ _ _ _ (by intro n; simp)
                    have hdisj_md : childKeep? ((tempDir ++ [item]) ++ ["meta_data"]) templateName
                        (metadata_dir ++ ["insights.specs.Specs.pcp_raw_data.json"]) = none := by
                      rcases find_metadata_ok_cases heq_md with hm | hm <;> subst hm <;>
                        (simp only [List.append_assoc, childKeep?_append_lift]; decide)
                    have hchain := frame_to_fs5 ["meta_data"] templateName
                      tools fs1 fs3 fs4 fs5 (tempDir ++ [item]) pcp_dir metadata_dir
                      ("synthetic_pcp_" ++ pattern_type) gf cf u heq_gen heq_c heq_up
                      hdisj_pcp hdisj_md
                    rw [childFilesP_pack, hchain, hfs1]
                    dsimp only
                    rw [List.append_assoc]
                    exact childFilesP_extract fs archive ([item] ++ ["meta_data"])
                      templateName hfresh
                  · have hdisj_pcp : ∀ n : String,
                        childKeep? ((tempDir ++ [item]) ++ ["metadata"]) templateName
                          (pcp_dir ++ [n]) = none := by
                      rcases find_pcp_ok_cases heq_pcp with hp | hp <;> subst hp <;>
                        exact hdisj_pcp_of_rel _ _ _ _ (by intro n; simp)
                    have hdisj_md : childKeep? ((tempDir ++ [item]) ++ ["metadata"]) templateName
                        (metadata_dir ++ ["insights.specs.Specs.pcp_raw_data.json"]) = none := by
                      rcases find_metadata_ok_cases heq_md with hm | hm <;> subst hm <;>
                        (simp only [List.append_assoc, childKeep?_append_lift]; decide)
                    have hchain := frame_to_fs5 ["metadata"] templateName
                      tools fs1 fs3 fs4 fs5 (tempDir ++ [item]) pcp_dir metadata_dir
                      ("synthetic_pcp_" ++ pattern_type) gf cf u heq_gen heq_c heq_up
                      hdisj_pcp hdisj_md
                    rw [childFilesP_pack, hchain, hfs1]
                    dsimp only
                    rw [List.append_assoc]
                    exact childFilesP_extract fs archive ([item] ++ ["metadata"])
                      templateName hfresh

/-- C7: the injector is invoked at most once per run; it is invoked only
when the audit captured after extraction was negative; and in a completed
run it is invoked exactly when that retained audit was negative. -/
theorem C7_injector_discipline (tools : ExternalTools) (fs : FS) (cwd : Path)
    (input_archive_path : Path) (archive : InputArchive) (pattern_type : String)
    (output_name? : Option String) :
    (process_insights_archive tools fs cwd input_archive_path archive
        pattern_type output_name?).events.count "inject" ≤ 1 ∧
    ("inject" ∈ (process_insights_archive tools fs cwd input_archive_path archive
        pattern_type output_name?).events →
      auditOutcome fs archive = some false) ∧
    ((∃ q, (process_insights_archive tools fs cwd input_archive_path archive
        pattern_type output_name?).result = .ok q) →
      ("inject" ∈ (process_insights_archive tools fs cwd input_archive_path archive
          pattern_type output_name?).events ↔ auditOutcome fs archive = some false)) ∧
    (auditOutcome fs archive = some true →
      (∀ f ∈ fs.files, tempDir.isPrefixOf f.1 = false) →
      ∀ a, (process_insights_archive tools fs cwd input_archive_path archive
          pattern_type output_name?).packed = some a →
        childFilesP a.files ([a.rootName] ++ ["data", "insights_commands"]) (fun _ => true)
          = childFilesP archive.files ([a.rootName] ++ ["data", "insights_commands"])
              (fun _ => true) ∧
        childFilesP a.files ([a.rootName] ++ ["meta_data"]) templateName
          = childFilesP archive.files ([a.rootName] ++ ["meta_data"]) templateName ∧
        childFilesP a.files ([a.rootName] ++ ["metadata"]) templateName
          = childFilesP archive.files ([a.rootName] ++ ["metadata"]) templateName) := by
  refine ⟨?_, ?_, ?_, ?_⟩
  · unfold process_insights_archive abortRun
    dsimp only
    repeat' split
    all_goals (dsimp only; decide)
  · intro hmem
    unfold process_insights_archive abortRun at hmem
    dsimp only at hmem
    repeat' split at hmem
    all_goals (dsimp only at hmem)
    all_goals first
      | exact absurd hmem (by decide)
      | simp_all [auditOutcome]
  · rintro ⟨q, hq⟩
    unfold process_insights_archive abortRun at hq ⊢
    dsimp only at hq ⊢
    repeat' split
    all_goals simp_all [auditOutcome]
  · intro haudit hfresh a hpk
    exact audit_positive_frame tools fs cwd input_archive_path archive pattern_type
      output_name? a haudit hfresh hpk

/-- A bundle that already carries provenance evidence: the instance
document artifact and the fixed manifest JSON. -/
def bundleWithProv : InputArchive :=
  { dirs := [["insights-host"], ["insights-host", "var"], ["insights-host", "var", "log"],
             ["insights-host", "var", "log", "pcp"],
             ["insights-host", "var", "log", "pcp", "pmlogger"],
             ["insights-host", "meta_data"],
             ["insights-host", "data"], ["insights-host", "data", "insights_commands"]],
    files := [(["insights-host", "data", "insights_commands", awsDocumentFilename],
                 .text "preexisting instance document"),
              (["insights-host", "meta_data",
                 "insights.specs.Specs.aws_instance_id_doc.json"],
                 .text "preexisting metadata json")] }

/-- A run on an already-provenanced bundle (audit positive). -/
def runProvenanced : RunResult :=
  process_insights_archive (toolsFor "synthetic_pcp_idle") homeFS ["home"]
    ["home", "input.tar.gz"] bundleWithProv "idle" none

/-- Witness for C7: the example run injected, so its retained audit was
negative; and on an already-provenanced bundle the pre-existing
command-output artifacts survive the run byte-for-byte. -/
theorem C7_injector_discipline_witness :
    auditOutcome homeFS bundleStd = some false ∧
    childFilesP ((runProvenanced.packed.getD ⟨"", [], []⟩).files)
        ([(runProvenanced.packed.getD ⟨"", [], []⟩).rootName]
          ++ ["data", "insights_commands"]) (fun _ => true)
      = childFilesP bundleWithProv.files
          ([(runProvenanced.packed.getD ⟨"", [], []⟩).rootName]
            ++ ["data", "insights_commands"]) (fun _ => true) :=
  ⟨(C7_injector_discipline (toolsFor "synthetic_pcp_idle") homeFS ["home"]
      ["home", "input.tar.gz"] bundleStd "idle" none).2.1 (by decide),
   ((C7_injector_discipline (toolsFor "synthetic_pcp_idle") homeFS ["home"]
      ["home", "input.tar.gz"] bundleWithProv "idle" none).2.2.2 (by decide) (by decide)
      (runProvenanced.packed.getD ⟨"", [], []⟩) (by rfl)).1⟩

end SyntheticInsights
